import Mathlib

/-!
# A content-addressable object store (mygit): shallow embedding

This file embeds the object-storage core of a small git reimplementation
(`cmd/mygit/helpers.go`): the canonical blob serialization, the SHA-1
digest, the zlib-compressed on-disk encoding, the 2/38 path sharding, the
repository initializer, and the `cat-file` / `hash-object` commands.

Byte sequences are modelled as `List Nat` (each element a byte value);
Go strings are modelled by their byte sequences via `strBytes`.  Process
exits from deep inside the Go code are modelled as typed `GitError`
results; Go runtime panics (out-of-range slices) are modelled by the
distinguished error `GitError.panicSliceOutOfRange`.
-/

set_option maxRecDepth 4000

/-- The byte sequence of a Go string literal (ASCII in all uses here). -/
def strBytes (s : String) : List Nat := s.data.map Char.toNat

/-- Failure modes of the store.  `notFound`, `corruptStream` and
`malformedObject` are the spec's taxonomy for the exit paths of the Go
code; `panicSliceOutOfRange` models a Go runtime panic caused by an
out-of-range slice expression. -/
inductive GitError where
  | notFound
  | corruptStream
  | malformedObject
  | panicSliceOutOfRange
  deriving DecidableEq, Repr

/-- `findNullByteIndex` from helpers.go: index of the first null byte,
or the length of the input when there is none. -/
def findNullByteIndex : List Nat → Nat
  | [] => 0
  | v :: rest => if v = 0 then 0 else findNullByteIndex rest + 1

/-! ## SHA-1 (Modelled from the spec: the Digest Function, provided in Go
by the standard library `crypto/sha1`; implemented here as FIPS-180 SHA-1
over byte lists, with fuel-based structural recursion). -/

/-- Rotate a 32-bit word left by `s` bits. -/
def rotl32 (x s : Nat) : Nat :=
  (x % 4294967296 * 2 ^ s + x % 4294967296 / 2 ^ (32 - s)) % 4294967296

/-- Round constant for round `t` of SHA-1. -/
def sha1K (t : Nat) : Nat :=
  if t < 20 then 1518500249
  else if t < 40 then 1859775393
  else if t < 60 then 2400959708
  else 3395469782

/-- Round function for round `t` of SHA-1. -/
def sha1F (t b c d : Nat) : Nat :=
  if t < 20 then (b &&& c) ||| ((b ^^^ 4294967295) &&& d)
  else if t < 40 then b ^^^ c ^^^ d
  else if t < 60 then (b &&& c) ||| (b &&& d) ||| (c &&& d)
  else b ^^^ c ^^^ d

/-- One SHA-1 round on the five-word state. -/
def sha1Round (t w : Nat) (st : Nat × Nat × Nat × Nat × Nat) :
    Nat × Nat × Nat × Nat × Nat :=
  let a := st.1
  let b := st.2.1
  let c := st.2.2.1
  let d := st.2.2.2.1
  let e := st.2.2.2.2
  let temp := (rotl32 a 5 + sha1F t b c d + e + sha1K t + w) % 4294967296
  (temp, a, rotl32 b 30, c, d)

/-- Run the SHA-1 rounds over the word schedule, starting at round `t`. -/
def sha1Rounds : Nat → List Nat → (Nat × Nat × Nat × Nat × Nat) →
    Nat × Nat × Nat × Nat × Nat
  | _, [], st => st
  | t, w :: ws, st => sha1Rounds (t + 1) ws (sha1Round t w st)

/-- Pack bytes into big-endian 32-bit words (four bytes per word). -/
def bytesToWords : List Nat → List Nat
  | b0 :: b1 :: b2 :: b3 :: rest =>
      (b0 % 256 * 16777216 + b1 % 256 * 65536 + b2 % 256 * 256 + b3 % 256) ::
        bytesToWords rest
  | _ => []

/-- Extend the 16 chunk words to the 80-word schedule. -/
def expandWordsAux : Nat → List Nat → List Nat
  | 0, ws => ws
  | fuel + 1, ws =>
      if 80 ≤ ws.length then ws
      else
        expandWordsAux fuel (ws ++
          [rotl32 (ws.getD (ws.length - 3) 0 ^^^ ws.getD (ws.length - 8) 0 ^^^
            ws.getD (ws.length - 14) 0 ^^^ ws.getD (ws.length - 16) 0) 1])

/-- Compress one 64-byte chunk into the running SHA-1 state. -/
def processChunk (h : Nat × Nat × Nat × Nat × Nat) (chunk : List Nat) :
    Nat × Nat × Nat × Nat × Nat :=
  let ws := expandWordsAux 64 (bytesToWords chunk)
  let r := sha1Rounds 0 ws h
  ((h.1 + r.1) % 4294967296, (h.2.1 + r.2.1) % 4294967296,
   (h.2.2.1 + r.2.2.1) % 4294967296, (h.2.2.2.1 + r.2.2.2.1) % 4294967296,
   (h.2.2.2.2 + r.2.2.2.2) % 4294967296)

/-- Fold `processChunk` over the 64-byte chunks of the padded message. -/
def processChunksAux : Nat → (Nat × Nat × Nat × Nat × Nat) → List Nat →
    Nat × Nat × Nat × Nat × Nat
  | 0, h, _ => h
  | _ + 1, h, [] => h
  | fuel + 1, h, b :: rest =>
      processChunksAux fuel (processChunk h ((b :: rest).take 64)) ((b :: rest).drop 64)

/-- The 64-bit big-endian byte encoding of the message bit length. -/
def lengthBytes64 (n : Nat) : List Nat :=
  [n / 72057594037927936 % 256, n / 281474976710656 % 256,
   n / 1099511627776 % 256, n / 4294967296 % 256,
   n / 16777216 % 256, n / 65536 % 256, n / 256 % 256, n % 256]

/-- SHA-1 message padding: a 0x80 byte, zeros to 56 mod 64, then the
bit length as 8 big-endian bytes. -/
def padMessage (msg : List Nat) : List Nat :=
  msg ++ 128 :: List.replicate ((64 - (msg.length + 9) % 64) % 64) 0 ++
    lengthBytes64 (msg.length * 8)

/-- Big-endian byte rendering of one 32-bit word. -/
def word32Bytes (w : Nat) : List Nat :=
  [w / 16777216 % 256, w / 65536 % 256, w / 256 % 256, w % 256]

/-- SHA-1 digest of a byte sequence, as 20 bytes (Go `sha1.Sum`). -/
def sha1Sum (text : List Nat) : List Nat :=
  let r := processChunksAux (padMessage text).length
    (1732584193, 4023233417, 2562383102, 271733878, 3285377520) (padMessage text)
  word32Bytes r.1 ++ word32Bytes r.2.1 ++ word32Bytes r.2.2.1 ++
    word32Bytes r.2.2.2.1 ++ word32Bytes r.2.2.2.2

/-- The ASCII code of the lowercase hexadecimal digit for `n < 16`. -/
def hexDigitChar (n : Nat) : Nat := if n < 10 then 48 + n else 87 + n

/-- Lowercase hexadecimal rendering of a byte sequence, two ASCII
characters per byte (Go `fmt.Sprintf` with the hex verb). -/
def bytesToHex : List Nat → List Nat
  | [] => []
  | b :: bs => hexDigitChar (b / 16 % 16) :: hexDigitChar (b % 16) :: bytesToHex bs

/-- `sha1Hash` from helpers.go: the SHA-1 digest of a byte sequence
rendered as a 40-character lowercase hexadecimal byte sequence. -/
def sha1Hash (text : List Nat) : List Nat := bytesToHex (sha1Sum text)

/-! ## Decimal rendering (Go `%d` on a non-negative int). -/

/-- Fuel-driven ASCII decimal rendering; any `fuel > n` is enough. -/
def decimalBytesAux : Nat → Nat → List Nat
  | 0, _ => []
  | fuel + 1, n =>
      if n < 10 then [48 + n] else decimalBytesAux fuel (n / 10) ++ [48 + n % 10]

/-- The ASCII decimal rendering of a natural number. -/
def decimalBytes (n : Nat) : List Nat := decimalBytesAux (n + 1) n

/-- The canonical serialized form built by `hashObject` in helpers.go:
the bytes of the format `blob <size>\0<content>`. -/
def blobContents (fileContent : List Nat) : List Nat :=
  strBytes "blob " ++ decimalBytes fileContent.length ++ 0 :: fileContent

/-! ## Compression layer (Modelled from the spec: the Go standard library
`compress/zlib`; a lossless wrapper with a two-byte header checked when
the reader is constructed and an adler32 trailer checked when the body is
read, mirroring where Go's zlib reports each failure). -/

/-- Adler-32 over a byte sequence (the zlib integrity checksum). -/
def adler32Aux : List Nat → Nat → Nat → Nat
  | [], a, b => b * 65536 + a
  | x :: xs, a, b => adler32Aux xs ((a + x) % 65521) ((b + (a + x) % 65521) % 65521)

/-- Adler-32 checksum with the standard initial state. -/
def adler32 (data : List Nat) : Nat := adler32Aux data 1 0

/-- The four big-endian checksum trailer bytes. -/
def checksumBytes (c : Nat) : List Nat :=
  [c / 16777216 % 256, c / 65536 % 256, c / 256 % 256, c % 256]

/-- Compress: two-byte zlib header, the payload, the adler32 trailer. -/
def zlibCompress (data : List Nat) : List Nat :=
  120 :: 156 :: (data ++ checksumBytes (adler32 data))

/-- Constructing a zlib reader: validates the two-byte stream header and
returns the rest of the stream; fails on a bad or missing header.  This
is the failure Go's `zlib.NewReader` reports. -/
def zlibNewReader : List Nat → Except GitError (List Nat)
  | a :: b :: rest =>
      if a = 120 ∧ b = 156 then Except.ok rest
      else Except.error GitError.corruptStream
  | _ => Except.error GitError.corruptStream

/-- Reading the full body: returns the decompressed bytes together with
an optional error — `some` on a truncated stream or a checksum mismatch,
with the bytes recovered so far as the first component.  This is the
pair Go's `io.ReadAll` returns. -/
def zlibReadAll (s : List Nat) : List Nat × Option GitError :=
  if s.length < 4 then (s, some GitError.corruptStream)
  else
    let body := s.take (s.length - 4)
    let trailer := s.drop (s.length - 4)
    if trailer = checksumBytes (adler32 body) then (body, none)
    else (body, some GitError.corruptStream)

/-! ## The file system model. -/

/-- The file system state: a set of directories and a map from file
paths to file contents, both keyed by path byte sequences. -/
structure FS where
  dirs : List (List Nat)
  files : List (List Nat × List Nat)
  deriving DecidableEq, Repr

/-- `os.ReadFile`: the stored contents, or `none` when the path has no
file. -/
def readFile (path : List Nat) (files : List (List Nat × List Nat)) :
    Option (List Nat) :=
  (files.find? (fun p => decide (p.1 = path))).map (fun p => p.2)

/-- `os.Create` + full write: (re)bind the path to the contents. -/
def writeFile (path content : List Nat) (files : List (List Nat × List Nat)) :
    List (List Nat × List Nat) :=
  (path, content) :: files.filter (fun p => decide (p.1 ≠ path))

/-- `os.Mkdir` with the "already exists" error tolerated. -/
def mkdirIfAbsent (dirs : List (List Nat)) (d : List Nat) : List (List Nat) :=
  if d ∈ dirs then dirs else dirs ++ [d]

/-! ## initCmd. -/

/-- The folders `initCmd` creates. -/
def foldersToCreate : List (List Nat) :=
  [strBytes ".git/", strBytes ".git/objects", strBytes ".git/refs"]

/-- The bytes `initCmd` writes to `.git/HEAD`. -/
def headContent : List Nat := strBytes "ref: refs/heads/main\n"

/-- `initCmd` from helpers.go: create the three folders (tolerating
"already exists"), then write the HEAD file. -/
def initCmd (fs : FS) : FS :=
  { dirs := foldersToCreate.foldl mkdirIfAbsent fs.dirs,
    files := writeFile (strBytes ".git/HEAD") headContent fs.files }

/-! ## catFile. -/

/-- The shard subdirectory `catFile` derives: the first two bytes. -/
def catFileDir (object : List Nat) : List Nat := object.take 2

/-- The shard file name `catFile` derives: the remaining bytes. -/
def catFileFilename (object : List Nat) : List Nat := object.drop 2

/-- The pair of Go slice expressions `object[:2]` and `object[2:]`:
a runtime panic when the identifier is shorter than two bytes. -/
def goSliceSplit2 (object : List Nat) :
    Except GitError (List Nat × List Nat) :=
  if object.length < 2 then Except.error GitError.panicSliceOutOfRange
  else Except.ok (catFileDir object, catFileFilename object)

/-- The sharded object path `.git/objects/<dir>/<filename>`. -/
def objectPath (dir filename : List Nat) : List Nat :=
  strBytes ".git/objects/" ++ dir ++ 47 :: filename

/-- Lines 126–128 of helpers.go: locate the first null byte and return
everything after it.  The slice `decompressedContents[headerEndOffset+1:]`
is a runtime panic when the offset reaches past the end, which happens
exactly when the input has no null byte. -/
def decodeContents (decompressedContents : List Nat) :
    Except GitError (List Nat) :=
  let headerEndOffset := findNullByteIndex decompressedContents
  if decompressedContents.length < headerEndOffset + 1 then
    Except.error GitError.panicSliceOutOfRange
  else Except.ok (decompressedContents.drop (headerEndOffset + 1))

/-- `catFile` from helpers.go (the `-p` path): shard the identifier,
read the file (exit modelled `notFound` on failure), construct the zlib
reader (exit modelled `corruptStream` on failure), read the body with
the error component discarded, and strip the header. -/
def catFile (object : List Nat) (fs : FS) : Except GitError (List Nat) :=
  match goSliceSplit2 object with
  | Except.error e => Except.error e
  | Except.ok (dir, filename) =>
    match readFile (objectPath dir filename) fs.files with
    | none => Except.error GitError.notFound
    | some fileContents =>
      match zlibNewReader fileContents with
      | Except.error e => Except.error e
      | Except.ok zrest => decodeContents (zlibReadAll zrest).1

/-! ## hashObject. -/

/-- The shard subdirectory `hashObject` derives from the hash. -/
def hashObjectFolder (hash : List Nat) : List Nat := hash.take 2

/-- The shard file name `hashObject` derives from the hash. -/
def hashObjectFile (hash : List Nat) : List Nat := hash.drop 2

/-- The result of `hashObject`: the hash printed to standard output and
the resulting file system. -/
structure HashObjectResult where
  out : List Nat
  fs : FS
  deriving DecidableEq, Repr

/-- `hashObject` from helpers.go (the `-w` path): build the canonical
`blob <size>\0<content>` bytes, hash them, create the shard directory
(tolerating "already exists"), and write the compressed bytes. -/
def hashObject (fileContent : List Nat) (fs : FS) : HashObjectResult :=
  let blob := blobContents fileContent
  let hash := sha1Hash blob
  let dir := strBytes ".git/objects/" ++ hashObjectFolder hash
  let path := objectPath (hashObjectFolder hash) (hashObjectFile hash)
  { out := hash,
    fs := { dirs := mkdirIfAbsent fs.dirs dir,
            files := writeFile path (zlibCompress blob) fs.files } }

/-! ## Helper lemmas. -/

/-- Whether a byte is the ASCII code of a lowercase hexadecimal digit. -/
def isLowerHexByte (c : Nat) : Bool :=
  (48 ≤ c && c ≤ 57) || (97 ≤ c && c ≤ 102)

theorem bytesToHex_length (l : List Nat) :
    (bytesToHex l).length = 2 * l.length := by
  induction l with
  | nil => rfl
  | cons b bs ih => simp [bytesToHex, ih]; omega

theorem sha1Sum_length (text : List Nat) : (sha1Sum text).length = 20 := by
  simp [sha1Sum, word32Bytes]

theorem sha1Hash_length (text : List Nat) : (sha1Hash text).length = 40 := by
  simp [sha1Hash, bytesToHex_length, sha1Sum_length]

theorem hexDigitChar_isLowerHex (n : Nat) (h : n < 16) :
    isLowerHexByte (hexDigitChar n) = true := by
  unfold hexDigitChar isLowerHexByte
  split <;> simp <;> omega

theorem bytesToHex_all_lowerHex (l : List Nat) :
    (bytesToHex l).all isLowerHexByte = true := by
  induction l with
  | nil => rfl
  | cons b bs ih =>
    simp only [bytesToHex, List.all_cons, ih, Bool.and_true]
    rw [hexDigitChar_isLowerHex _ (Nat.mod_lt _ (by omega)),
      hexDigitChar_isLowerHex _ (Nat.mod_lt _ (by omega))]
    rfl

theorem decimalBytesAux_digits (fuel n : Nat) (hf : n < fuel) :
    ∀ x ∈ decimalBytesAux fuel n, 48 ≤ x ∧ x ≤ 57 := by
  induction fuel generalizing n with
  | zero => omega
  | succ fuel ih =>
    intro x hx
    unfold decimalBytesAux at hx
    split at hx
    · simp at hx
      omega
    · rename_i hn
      rcases List.mem_append.1 hx with hx | hx
      · exact ih (n / 10) (by omega) x hx
      · simp at hx
        have := Nat.mod_lt n (show 0 < 10 by omega)
        omega

theorem decimalBytes_digits (n : Nat) :
    ∀ x ∈ decimalBytes n, 48 ≤ x ∧ x ≤ 57 :=
  decimalBytesAux_digits (n + 1) n (Nat.lt_succ_self n)

theorem decimalBytesAux_length (fuel n : Nat) (hf : n < fuel) :
    (decimalBytesAux fuel n).length = Nat.log 10 n + 1 := by
  induction fuel generalizing n with
  | zero => omega
  | succ fuel ih =>
    unfold decimalBytesAux
    split
    · rename_i hn
      simp [Nat.log_eq_zero_iff.2 (Or.inl hn)]
    · rename_i hn
      have h10 : 10 ≤ n := by omega
      have hdiv : n / 10 < n := Nat.div_lt_self (by omega) (by omega)
      rw [List.length_append, ih (n / 10) (by omega)]
      have hlog : Nat.log 10 (n / 10) = Nat.log 10 n - 1 := Nat.log_div_base 10 n
      have hpos : 0 < Nat.log 10 n := Nat.log_pos (by omega) h10
      simp
      omega

theorem decimalBytes_length (n : Nat) :
    (decimalBytes n).length = Nat.log 10 n + 1 :=
  decimalBytesAux_length (n + 1) n (Nat.lt_succ_self n)

theorem findNullByteIndex_append (h t : List Nat) (hh : ∀ x ∈ h, x ≠ 0) :
    findNullByteIndex (h ++ 0 :: t) = h.length := by
  induction h with
  | nil => simp [findNullByteIndex]
  | cons a as ih =>
    have ha : a ≠ 0 := hh a (by simp)
    simp only [List.cons_append, findNullByteIndex, if_neg ha, List.length_cons,
      List.append_eq]
    rw [ih (fun x hx => hh x (by simp [hx]))]

theorem blobContents_eq (c : List Nat) :
    blobContents c = (strBytes "blob " ++ decimalBytes c.length) ++ 0 :: c := by
  simp [blobContents]

theorem blobHeader_nonzero (c : List Nat) :
    ∀ x ∈ strBytes "blob " ++ decimalBytes c.length, x ≠ 0 := by
  intro x hx
  rcases List.mem_append.1 hx with hx | hx
  · have : strBytes "blob " = [98, 108, 111, 98, 32] := by decide
    rw [this] at hx
    simp at hx
    omega
  · have := decimalBytes_digits c.length x hx
    omega

theorem findNullByteIndex_blobContents (c : List Nat) :
    findNullByteIndex (blobContents c) =
      (strBytes "blob " ++ decimalBytes c.length).length := by
  rw [blobContents_eq]
  exact findNullByteIndex_append _ _ (blobHeader_nonzero c)

theorem decode_blobContents (c : List Nat) :
    decodeContents (blobContents c) = Except.ok c := by
  unfold decodeContents
  rw [findNullByteIndex_blobContents]
  have hlen : (blobContents c).length =
      (strBytes "blob " ++ decimalBytes c.length).length + 1 + c.length := by
    rw [blobContents_eq]
    simp
    omega
  rw [if_neg (by omega)]
  congr 1
  rw [blobContents_eq, ← List.drop_drop]
  rw [show ((strBytes "blob " ++ decimalBytes c.length) ++ 0 :: c).drop
      (strBytes "blob " ++ decimalBytes c.length).length = 0 :: c from
    List.drop_left _ _]
  rfl

theorem readFile_writeFile (path content : List Nat)
    (files : List (List Nat × List Nat)) :
    readFile path (writeFile path content files) = some content := by
  simp [readFile, writeFile, List.find?]

theorem checksumBytes_length (c : Nat) : (checksumBytes c).length = 4 := rfl

theorem zlibNewReader_compress (data : List Nat) :
    zlibNewReader (zlibCompress data) =
      Except.ok (data ++ checksumBytes (adler32 data)) := by
  simp [zlibCompress, zlibNewReader]

theorem zlibReadAll_compress (data : List Nat) :
    zlibReadAll (data ++ checksumBytes (adler32 data)) = (data, none) := by
  unfold zlibReadAll
  have hlen : (data ++ checksumBytes (adler32 data)).length = data.length + 4 := by
    simp [checksumBytes_length]
  rw [hlen, if_neg (by omega)]
  simp only [Nat.add_sub_cancel, List.take_left, List.drop_left]
  simp

theorem findNullByteIndex_eq (data : List Nat) (i : Nat)
    (h1 : i < data.length) (h2 : data.getD i 0 = 0)
    (h3 : ∀ j, j < i → data.getD j 0 ≠ 0) :
    findNullByteIndex data = i := by
  induction data generalizing i with
  | nil => simp at h1
  | cons a as ih =>
    cases i with
    | zero =>
      simp only [List.getD_cons_zero] at h2
      simp [findNullByteIndex, h2]
    | succ n =>
      have ha : a ≠ 0 := by
        have := h3 0 (Nat.succ_pos n)
        simpa using this
      simp only [findNullByteIndex, if_neg ha]
      have h1a : n < as.length := by simpa using h1
      have h2a : as.getD n 0 = 0 := by simpa using h2
      have h3a : ∀ j, j < n → as.getD j 0 ≠ 0 := fun j hj => by
        have := h3 (j + 1) (by omega)
        simpa using this
      rw [ih n h1a h2a h3a]

theorem mkdirIfAbsent_of_mem {d : List Nat} {ds : List (List Nat)} (h : d ∈ ds) :
    mkdirIfAbsent ds d = ds := if_pos h

theorem mem_mkdirIfAbsent_self (ds : List (List Nat)) (d : List Nat) :
    d ∈ mkdirIfAbsent ds d := by
  unfold mkdirIfAbsent
  split
  · assumption
  · simp

theorem mem_mkdirIfAbsent_of_mem {x : List Nat} {ds : List (List Nat)}
    (d : List Nat) (h : x ∈ ds) : x ∈ mkdirIfAbsent ds d := by
  unfold mkdirIfAbsent
  split
  · exact h
  · simp [h]

theorem mem_foldl_mkdirIfAbsent (fl ds : List (List Nat)) (x : List Nat)
    (h : x ∈ ds ∨ x ∈ fl) : x ∈ fl.foldl mkdirIfAbsent ds := by
  induction fl generalizing ds with
  | nil => simpa using h.resolve_right (by simp)
  | cons a as ih =>
    simp only [List.foldl_cons]
    rcases h with h | h
    · exact ih _ (Or.inl (mem_mkdirIfAbsent_of_mem a h))
    · rcases List.mem_cons.1 h with rfl | h
      · exact ih _ (Or.inl (mem_mkdirIfAbsent_self ds x))
      · exact ih _ (Or.inr h)

theorem foldl_mkdirIfAbsent_of_mem (fl ds : List (List Nat))
    (h : ∀ x ∈ fl, x ∈ ds) : fl.foldl mkdirIfAbsent ds = ds := by
  induction fl with
  | nil => rfl
  | cons a as ih =>
    simp only [List.foldl_cons]
    rw [mkdirIfAbsent_of_mem (h a (by simp))]
    exact ih fun x hx => h x (by simp [hx])

theorem writeFile_idem (path content : List Nat)
    (files : List (List Nat × List Nat)) :
    writeFile path content (writeFile path content files) =
      writeFile path content files := by
  unfold writeFile
  congr 1
  rw [List.filter_cons]
  simp [List.filter_filter]

/-! ## Claim theorems. -/

/-- C1: Round-trip — for every byte sequence `c` (including the empty
one), writing `c` as a blob (`hashObject`, which encodes `c` in the
canonical `blob <size>\0<content>` form, compresses it and stores it
under the hash-derived path) and reading it back by the returned
identifier (`catFile`, which reads, decompresses and strips the header)
restores `c` exactly; moreover the stored object's decompressed bytes
carry the type tag `blob`.  (`catFile` prints only the content; the
type lives in the stored header, whose first four bytes are `blob`.) -/
theorem catFile_hashObject_round_trip (c : List Nat) (fs : FS) :
    catFile ((hashObject c fs).out) ((hashObject c fs).fs) = Except.ok c ∧
    ((zlibReadAll ((zlibCompress (blobContents c)).drop 2)).1).take 4 =
      strBytes "blob" := by
  constructor
  · have h1 : goSliceSplit2 (sha1Hash (blobContents c)) =
        Except.ok (catFileDir (sha1Hash (blobContents c)),
          catFileFilename (sha1Hash (blobContents c))) := by
      unfold goSliceSplit2
      rw [if_neg (by rw [sha1Hash_length]; omega)]
    have h2 : readFile
        (objectPath (catFileDir (sha1Hash (blobContents c)))
          (catFileFilename (sha1Hash (blobContents c))))
        ((hashObject c fs).fs).files = some (zlibCompress (blobContents c)) :=
      readFile_writeFile _ _ _
    show catFile (sha1Hash (blobContents c)) ((hashObject c fs).fs) = Except.ok c
    unfold catFile
    rw [h1]
    simp only [h2, zlibNewReader_compress, zlibReadAll_compress,
      decode_blobContents]
  · show ((zlibReadAll (blobContents c ++ checksumBytes (adler32 (blobContents c)))).1).take 4 =
      strBytes "blob"
    rw [zlibReadAll_compress]
    rfl

/-- C2: Canonical encoding — `blobContents content` is exactly the bytes
`blob` + space + ASCII-decimal of the content length + NUL + content;
its length is exactly `len(type) + 1 + digits(len(content)) + 1 +
len(content)` with type `blob` of length 4 and `digits(n) = log10(n)+1`;
and the encoding is injective over contents for the fixed type `blob`. -/
theorem blobContents_canonical (content : List Nat) :
    blobContents content =
      strBytes "blob" ++ 32 :: (decimalBytes content.length ++ 0 :: content) ∧
    (blobContents content).length =
      4 + 1 + (Nat.log 10 content.length + 1) + 1 + content.length ∧
    ∀ c1 c2 : List Nat, blobContents c1 = blobContents c2 → c1 = c2 := by
  refine ⟨rfl, ?_, fun c1 c2 h => ?_⟩
  · have h5 : (strBytes "blob ").length = 5 := rfl
    rw [blobContents_eq]
    simp [h5, decimalBytes_length]
    omega
  · have hd := congrArg decodeContents h
    rw [decode_blobContents, decode_blobContents] at hd
    exact Except.ok.inj hd

/-- Witness for C2 at a concrete input: the encoding of `[104]` decodes
back to `[104]` through the injectivity statement. -/
theorem blobContents_canonical_witness :
    blobContents [104] = blobContents [104] ∧ ([104] : List Nat) = [104] :=
  ⟨rfl, (blobContents_canonical [104]).2.2 [104] [104] rfl⟩

/-- C3: Digest — the digest function is a pure total function producing,
for every byte sequence, a 40-character lowercase-hexadecimal rendering
of the 160-bit SHA-1 digest; the identifier `hashObject` prints is this
digest of the canonical serialized form (header plus content), not of
the raw content; and the model agrees with SHA-1 on the standard empty
digest and on git's well-known empty-blob identifier. -/
theorem sha1Hash_digest_contract :
    (∀ text : List Nat, (sha1Hash text).length = 40 ∧
      (sha1Hash text).all isLowerHexByte = true) ∧
    (∀ content : List Nat, ∀ fs : FS,
      (hashObject content fs).out = sha1Hash (blobContents content)) ∧
    sha1Hash [] = strBytes "da39a3ee5e6b4b0d3255bfef95601890afd80709" ∧
    (∀ fs : FS, (hashObject [] fs).out =
      strBytes "e69de29bb2d1d6434b8b29ae775ad8c2e48c5391") := by
  refine ⟨fun text => ⟨sha1Hash_length text, bytesToHex_all_lowerHex _⟩,
    fun content fs => rfl, by rfl, fun fs => by rfl⟩

/-- C4: Shard path — `catFile` and `hashObject` derive the same
location from an identifier: the first 2 characters name the
subdirectory under the objects root and the remaining 38 characters
name the file; for `0a5159e4fd9efdc3530c880fa15b672f08d47421` the
directory is `0a` and the file name is
`5159e4fd9efdc3530c880fa15b672f08d47421`. -/
theorem shardPath_catFile_hashObject_agree (id : List Nat)
    (h : id.length = 40) :
    catFileDir id = hashObjectFolder id ∧
    catFileFilename id = hashObjectFile id ∧
    objectPath (catFileDir id) (catFileFilename id) =
      objectPath (hashObjectFolder id) (hashObjectFile id) ∧
    (catFileDir id).length = 2 ∧
    (catFileFilename id).length = 38 ∧
    catFileDir (strBytes "0a5159e4fd9efdc3530c880fa15b672f08d47421") =
      strBytes "0a" ∧
    catFileFilename (strBytes "0a5159e4fd9efdc3530c880fa15b672f08d47421") =
      strBytes "5159e4fd9efdc3530c880fa15b672f08d47421" := by
  refine ⟨rfl, rfl, rfl, ?_, ?_, by decide, by decide⟩
  · simp [catFileDir, h]
  · simp [catFileFilename, h]

/-- Witness for C4 at the concrete 40-character identifier from the
specification. -/
theorem shardPath_catFile_hashObject_agree_witness :
    (strBytes "0a5159e4fd9efdc3530c880fa15b672f08d47421").length = 40 ∧
    catFileDir (strBytes "0a5159e4fd9efdc3530c880fa15b672f08d47421") =
      strBytes "0a" :=
  ⟨by decide, (shardPath_catFile_hashObject_agree
    (strBytes "0a5159e4fd9efdc3530c880fa15b672f08d47421")
    (by decide)).2.2.2.2.2.1⟩

/-- C5: on a decompressed byte sequence with no null byte the decoder
does not fail with a typed malformed-object error: `findNullByteIndex`
returns the input length and the slice `decompressedContents[len+1:]`
is out of range, a Go runtime panic.  Evaluated here end to end on a
stored object whose decompressed bytes are `[97]`. -/
theorem catFile_no_null_byte_panics :
    findNullByteIndex [97] = 1 ∧
    decodeContents [97] = Except.error GitError.panicSliceOutOfRange ∧
    catFile (strBytes "ab")
        ⟨[], [(strBytes ".git/objects/ab/", zlibCompress [97])]⟩ =
      Except.error GitError.panicSliceOutOfRange :=
  ⟨rfl, rfl, rfl⟩

/-- C6 (counterexample): a stored object with a valid two-byte zlib
header but a checksum-mismatched body is not a well-formed compressed
stream, yet `catFile` succeeds on it: the body-reading error is
discarded, so the result is `ok` instead of the `corruptStream` failure
the claim requires. -/
theorem catFile_checksum_mismatch_ignored :
    (zlibReadAll [0, 9, 9, 9, 9]).2 = some GitError.corruptStream ∧
    zlibNewReader [120, 156, 0, 9, 9, 9, 9] = Except.ok [0, 9, 9, 9, 9] ∧
    catFile (strBytes "ab")
        ⟨[], [(strBytes ".git/objects/ab/", [120, 156, 0, 9, 9, 9, 9])]⟩ =
      Except.ok [] :=
  ⟨rfl, rfl, rfl⟩

/-- C6 (amended): `catFile` fails with `notFound` when the sharded path
has no file and with `corruptStream` exactly when constructing the
stream reader rejects the header; when the reader is constructed
successfully the error component of the body read is discarded and
`catFile` proceeds to decode whatever bytes were recovered. -/
theorem catFile_error_taxonomy (object : List Nat) (fs : FS)
    (h : 2 ≤ object.length) :
    (readFile (objectPath (catFileDir object) (catFileFilename object))
        fs.files = none → catFile object fs = Except.error GitError.notFound) ∧
    (∀ stored,
      readFile (objectPath (catFileDir object) (catFileFilename object))
        fs.files = some stored →
      zlibNewReader stored = Except.error GitError.corruptStream →
      catFile object fs = Except.error GitError.corruptStream) ∧
    (∀ stored zrest,
      readFile (objectPath (catFileDir object) (catFileFilename object))
        fs.files = some stored →
      zlibNewReader stored = Except.ok zrest →
      catFile object fs = decodeContents (zlibReadAll zrest).1) := by
  have h1 : goSliceSplit2 object =
      Except.ok (catFileDir object, catFileFilename object) := by
    unfold goSliceSplit2
    rw [if_neg (by omega)]
  refine ⟨fun hr => ?_, fun stored hr hz => ?_, fun stored zrest hr hz => ?_⟩
  all_goals unfold catFile
  all_goals rw [h1]
  all_goals simp only [hr]
  all_goals simp only [hz]

/-- Witness for C6's amended statement: a missing path yields
`notFound`, and a stored byte sequence whose header the reader rejects
yields `corruptStream`. -/
theorem catFile_error_taxonomy_witness :
    catFile (strBytes "ab") ⟨[], []⟩ = Except.error GitError.notFound ∧
    catFile (strBytes "ab") ⟨[], [(strBytes ".git/objects/ab/", [99])]⟩ =
      Except.error GitError.corruptStream :=
  ⟨(catFile_error_taxonomy (strBytes "ab") ⟨[], []⟩ (by decide)).1 rfl,
   (catFile_error_taxonomy (strBytes "ab")
      ⟨[], [(strBytes ".git/objects/ab/", [99])]⟩ (by decide)).2.1 [99] rfl rfl⟩

/-- C7: Unvalidated size field — for every decompressed byte sequence
whose first null byte sits at index `i`, the decoder returns exactly
the bytes after index `i`, whatever size the header declares: the size
field is never compared with the remaining length. -/
theorem decodeContents_first_null (data : List Nat) (i : Nat)
    (h1 : i < data.length) (h2 : data.getD i 0 = 0)
    (h3 : ∀ j, j < i → data.getD j 0 ≠ 0) :
    decodeContents data = Except.ok (data.drop (i + 1)) := by
  have hfind : findNullByteIndex data = i := findNullByteIndex_eq data i h1 h2 h3
  unfold decodeContents
  rw [hfind, if_neg (by omega)]

/-- Witness for C7: a header declaring size 99 followed by a single
content byte still decodes to that byte — the lie in the size field is
not detected. -/
theorem decodeContents_first_null_witness :
    7 < (strBytes "blob 99" ++ 0 :: [120]).length ∧
    decodeContents (strBytes "blob 99" ++ 0 :: [120]) = Except.ok [120] :=
  ⟨by decide,
   (decodeContents_first_null (strBytes "blob 99" ++ 0 :: [120]) 7
      (by decide) (by decide) (by decide)).trans
     (congrArg Except.ok (by decide))⟩

/-- C8: Idempotent init — running `initCmd` twice leaves exactly the
state one run leaves; each of the three directories is created with
"already exists" tolerated, and afterwards the HEAD file holds exactly
the bytes of `ref: refs/heads/main` followed by a newline. -/
theorem initCmd_idempotent (fs : FS) :
    initCmd (initCmd fs) = initCmd fs ∧
    readFile (strBytes ".git/HEAD") (initCmd fs).files =
      some (strBytes "ref: refs/heads/main\n") ∧
    strBytes ".git/" ∈ (initCmd fs).dirs ∧
    strBytes ".git/objects" ∈ (initCmd fs).dirs ∧
    strBytes ".git/refs" ∈ (initCmd fs).dirs := by
  have hmem : ∀ x ∈ foldersToCreate,
      x ∈ foldersToCreate.foldl mkdirIfAbsent fs.dirs := fun x hx =>
    mem_foldl_mkdirIfAbsent _ _ _ (Or.inr hx)
  refine ⟨?_, readFile_writeFile _ _ _,
    hmem _ (by simp [foldersToCreate]),
    hmem _ (by simp [foldersToCreate]),
    hmem _ (by simp [foldersToCreate])⟩
  unfold initCmd
  simp only [foldl_mkdirIfAbsent_of_mem _ _ hmem, writeFile_idem]

/-- C9: Determinism — the identifier `hashObject` prints depends only
on the file content: two runs from arbitrary (possibly different)
states print the same 40-character identifier, the digest of the
canonical serialized form. -/
theorem hashObject_deterministic (c : List Nat) (fs1 fs2 : FS) :
    (hashObject c fs1).out = (hashObject c fs2).out ∧
    (hashObject c fs1).out = sha1Hash (blobContents c) ∧
    ((hashObject c fs1).out).length = 40 :=
  ⟨rfl, rfl, sha1Hash_length _⟩

/-- C10: Short-identifier totality — `catFile` slices the identifier as
`object[:2]` with no length check, so on any identifier shorter than
two characters the slice is out of range (a runtime panic, not a typed
error); the slice pair is total exactly on identifiers of length at
least 2. -/
theorem catFile_short_identifier_panics (object : List Nat) (fs : FS)
    (h : object.length < 2) :
    goSliceSplit2 object = Except.error GitError.panicSliceOutOfRange ∧
    catFile object fs = Except.error GitError.panicSliceOutOfRange ∧
    ∀ o2 : List Nat, 2 ≤ o2.length →
      goSliceSplit2 o2 = Except.ok (o2.take 2, o2.drop 2) := by
  have h1 : goSliceSplit2 object = Except.error GitError.panicSliceOutOfRange := by
    unfold goSliceSplit2
    rw [if_pos h]
  refine ⟨h1, ?_, fun o2 h2 => ?_⟩
  · unfold catFile
    rw [h1]
  · unfold goSliceSplit2
    rw [if_neg (by omega)]
    rfl

/-- Witness for C10: the empty identifier makes `catFile` panic. -/
theorem catFile_short_identifier_panics_witness :
    ([] : List Nat).length < 2 ∧
    catFile [] ⟨[], []⟩ = Except.error GitError.panicSliceOutOfRange :=
  ⟨by decide, (catFile_short_identifier_panics [] ⟨[], []⟩ (by decide)).2.1⟩
